import Mathlib

/-!
Shallow embedding of `src/plugins/Resource/Resource.Controller.js`.

The controller state (type registry, in-use registry, load counters, the
synchronous queue and the unique-id counter) is a `Controller` structure.
JS objects used as string/number keyed maps become association lists, where a
value of `none` models a slot that was set to `null` (a tombstone left by
`remove`) and an absent key models a property that was never written; both are
falsy on lookup.  The external engine flags `meta.engine.isReady` and
`meta.engine.isLoading` are passed to the operations as explicit booleans, and
everything observable that an operation emits (channel events and the
`meta.engine.onResourcesLoaded()` callback) is returned as a list of `REvent`.
Handles are passed and returned by value: an operation that mutates its
argument object in JS returns the updated `Resource` alongside its other
results.
-/

namespace ResourceCtrl

/-- A `Resource.Basic` handle as the controller sees it: the `Resource.Type`
category tag, the name, the source `path` (`""` models a missing or falsy
`path`) and the two lifecycle flags. -/
structure Resource where
  type : Nat
  name : String
  path : String
  isLoading : Bool
  inUse : Bool
deriving DecidableEq

/-- Observable emissions: the channel events `Resource.Event.ADDED` and
`Resource.Event.ALL_LOADED`, and the `meta.engine.onResourcesLoaded()`
callback. -/
inductive REvent where
  | added (r : Resource)
  | onResourcesLoaded
  | allLoaded
deriving DecidableEq

/-- Association-list lookup, modelling a JS object property read
(`none` = the property was never written). -/
def assocFind {α β : Type} [DecidableEq α] : List (α × β) → α → Option β
  | [], _ => none
  | (k, v) :: rest, key => if k = key then some v else assocFind rest key

/-- Association-list update, modelling a JS object property write. -/
def assocSet {α β : Type} [DecidableEq α] : List (α × β) → α → β → List (α × β)
  | [], key, v => [(key, v)]
  | (k, w) :: rest, key, v =>
    if k = key then (k, v) :: rest else (k, w) :: assocSet rest key v

/-- One per-type bucket of the type registry: `name` keys to either a handle
or `none` for a slot nulled by `remove`. -/
abbrev Bucket := List (String × Option Resource)

/-- Truthiness of `subBuffer[name]` in the JS: the stored handle when the slot
exists and is non-null, otherwise `none`. -/
def bucketEntry (b : Bucket) (n : String) : Option Resource :=
  match assocFind b n with
  | some (some r) => some r
  | _ => none

/-- The controller's fields, with the defaults of the JS prototype. -/
structure Controller where
  resources : List (Nat × Bucket)
  resourcesInUse : List (Nat × List Resource)
  numLoaded : Int
  numToLoad : Int
  syncQueue : Option (List Resource)
  isSyncLoading : Bool
  uniqueID : Int
deriving DecidableEq

/-- A freshly constructed controller (`init` plus the prototype defaults). -/
def initController : Controller :=
  { resources := [], resourcesInUse := [], numLoaded := 0, numToLoad := 0,
    syncQueue := none, isSyncLoading := false, uniqueID := 0 }

/-- The handle the type registry holds under `(t, n)`; `none` covers a missing
bucket, a missing key and a nulled slot alike. -/
def registeredAt (s : Controller) (t : Nat) (n : String) : Option Resource :=
  bucketEntry ((assocFind s.resources t).getD []) n

/-- `String.prototype.lastIndexOf` for a one-character needle: the greatest
index at which `c` occurs in `cs`, or `-1` when it does not occur. -/
def lastIdxOf : List Char → Char → Int
  | [], _ => -1
  | x :: xs, c =>
    if 0 ≤ lastIdxOf xs c then lastIdxOf xs c + 1
    else if x = c then 0 else -1

/-- The name-derivation block of `add` on the character list of `path`:
`path.slice(slashIndexOf + 1, pointIndexOf)` with `pointIndexOf` falling back
to `path.length` when the path holds no dot.  Both slice arguments are
nonnegative there, so JS `slice` is drop-then-take (an empty result when the
start is at or past the end). -/
def deriveList (cs : List Char) : List Char :=
  (cs.drop ((lastIdxOf cs '/') + 1).toNat).take
    ((if lastIdxOf cs '.' < 0 then (cs.length : Int) else lastIdxOf cs '.').toNat
      - ((lastIdxOf cs '/') + 1).toNat)

/-- Name derivation on strings, as `add` computes it. -/
def deriveFromPath (p : String) : String := String.mk (deriveList p.toList)

/-- The renaming `add` performs before anything else touches the registry: a
handle named by the sentinel `"unknown"` with a truthy `path` takes its name
from the path. -/
def deriveStep (r : Resource) : Resource :=
  if r.name = "unknown" ∧ r.path ≠ "" then { r with name := deriveFromPath r.path }
  else r

/-- What a call to `add` produces: the return value (`none` on a duplicate),
the caller's handle object after the call (its `name` may have been rewritten),
the new controller state and the emitted events. -/
structure AddResult where
  result : Option Resource
  resource : Resource
  state : Controller
  events : List REvent
deriving DecidableEq

/-- `add`: create the per-type bucket if missing, derive the name when it is
the `"unknown"` sentinel with a truthy path, reject (returning `null`, no
event) when the derived name is already truthy in the bucket, otherwise store
and emit `ADDED`. -/
def Controller.add (s : Controller) (r : Resource) : AddResult :=
  let found := assocFind s.resources r.type
  let resources0 := if found.isSome then s.resources else assocSet s.resources r.type []
  let subBuffer := found.getD []
  let r := deriveStep r
  if (bucketEntry subBuffer r.name).isSome then
    { result := none, resource := r, state := { s with resources := resources0 },
      events := [] }
  else
    let resources1 := assocSet resources0 r.type (assocSet subBuffer r.name (some r))
    { result := some r, resource := r,
      state := { s with resources := resources1 },
      events := [REvent.added r] }

/-- `remove`: warn (flag `true`) and leave the state alone when the bucket or
the named slot is not truthy; otherwise null the slot. -/
def Controller.remove (s : Controller) (r : Resource) : Controller × Bool :=
  match assocFind s.resources r.type with
  | none => (s, true)
  | some subBuffer =>
    if (bucketEntry subBuffer r.name).isSome then
      let resources1 := assocSet s.resources r.type (assocSet subBuffer r.name none)
      ({ s with resources := resources1 }, false)
    else (s, true)

/-- `addToLoad`: flag the handle as loading and, while `meta.engine.isReady`
is false, count it into the phase. -/
def Controller.addToLoad (s : Controller) (engineReady : Bool) (r : Resource) :
    Controller × Resource :=
  let r := { r with isLoading := true }
  if engineReady then (s, r) else ({ s with numToLoad := s.numToLoad + 1 }, r)

/-- `loadSuccess`.  The JS pushes the handle object into the in-use bucket and
then flips its flags; the pushed reference aliases the argument, so the stored
entry carries the final flag values. -/
def Controller.loadSuccess (s : Controller) (engineReady engineLoading : Bool)
    (r : Resource) : Controller × Resource × List REvent :=
  let r := { r with isLoading := false, inUse := true }
  let inUse1 := assocSet s.resourcesInUse r.type
    (((assocFind s.resourcesInUse r.type).getD []) ++ [r])
  let s := { s with resourcesInUse := inUse1 }
  if engineReady then (s, r, [])
  else
    let s := { s with numToLoad := s.numToLoad - 1, numLoaded := s.numLoaded + 1 }
    if s.numToLoad = 0 ∧ engineLoading = false then
      (s, r, [REvent.onResourcesLoaded, REvent.allLoaded])
    else (s, r, [])

/-- `loadFailed`: clear the loading flag, and while the phase is active
decrement the counter and run the same zero-crossing check as `loadSuccess`. -/
def Controller.loadFailed (s : Controller) (engineReady engineLoading : Bool)
    (r : Resource) : Controller × Resource × List REvent :=
  let r := { r with isLoading := false }
  if engineReady then (s, r, [])
  else
    let s := { s with numToLoad := s.numToLoad - 1 }
    if s.numToLoad = 0 ∧ engineLoading = false then
      (s, r, [REvent.onResourcesLoaded, REvent.allLoaded])
    else (s, r, [])

/-- Modelled from the spec: the `Resource.Type` enum is defined outside
`src/`; only that texture is a fixed category tag matters here, so an
arbitrary value stands in for it. -/
def typeTEXTURE : Nat := 0

/-- Modelled from the spec: the `Resource.Sound` tag of the `Resource.Type`
enum, likewise defined outside `src/`. -/
def typeSOUND : Nat := 1

/-- The shared body of `getTexture`/`getSound`: null for a falsy name, a
missing bucket, or a falsy slot, otherwise the stored handle. -/
def Controller.getByType (s : Controller) (t : Nat) (n : String) : Option Resource :=
  if n = "" then none
  else
    match assocFind s.resources t with
    | none => none
    | some subBuffer => bucketEntry subBuffer n

/-- `getTexture`. -/
def Controller.getTexture (s : Controller) (n : String) : Option Resource :=
  s.getByType typeTEXTURE n

/-- `getSound`. -/
def Controller.getSound (s : Controller) (n : String) : Option Resource :=
  s.getByType typeSOUND n

/-- `addToQueue`: lazily create the queue array and push. -/
def Controller.addToQueue (s : Controller) (r : Resource) : Controller :=
  match s.syncQueue with
  | none => { s with syncQueue := some [r] }
  | some q => { s with syncQueue := some (q ++ [r]) }

/-- `loadNextFromQueue`; the returned resource is the one whose
`forceLoad(true)` was invoked, `none` when the call was a no-op. -/
def Controller.loadNextFromQueue (s : Controller) : Controller × Option Resource :=
  let s := { s with isSyncLoading := false }
  match s.syncQueue with
  | none => (s, none)
  | some q =>
    match q.getLast? with
    | none => (s, none)
    | some r => ({ s with syncQueue := some q.dropLast }, some r)

/-- Three `addToQueue` calls in a row: the enqueue order `A`, `B`, `C` of the
LIFO-drain scenario. -/
def queueABC (s : Controller) (A B C : Resource) : Controller :=
  ((s.addToQueue A).addToQueue B).addToQueue C

/-- `getUniqueID`: pre-increment and return `_uniqueID`. -/
def Controller.getUniqueID (s : Controller) : Int × Controller :=
  (s.uniqueID + 1, { s with uniqueID := s.uniqueID + 1 })

/-- The ids handed out by `k` successive `getUniqueID` calls, in call order. -/
def runUniqueIDs : Controller → Nat → List Int × Controller
  | s, 0 => ([], s)
  | s, k + 1 =>
    ((s.getUniqueID).1 :: (runUniqueIDs (s.getUniqueID).2 k).1,
     (runUniqueIDs (s.getUniqueID).2 k).2)

/-- `addToLoad` over a batch of handles during the active phase
(`meta.engine.isReady` false). -/
def addPhaseLoads : Controller → List Resource → Controller
  | s, [] => s
  | s, r :: rest => addPhaseLoads (s.addToLoad false r).1 rest

/-- One load resolution during the active phase (`meta.engine.isReady` and
`meta.engine.isLoading` both false): a `true` tag resolves the handle through
`loadSuccess`, a `false` tag through `loadFailed`. -/
def resolveStep (s : Controller) (p : Resource × Bool) :
    Controller × Resource × List REvent :=
  match p with
  | (r, true) => s.loadSuccess false false r
  | (r, false) => s.loadFailed false false r

/-- Resolve a batch during the active phase, collecting all emissions in
order. -/
def runResolutions : Controller → List (Resource × Bool) → Controller × List REvent
  | s, [] => (s, [])
  | s, p :: rest =>
    ((runResolutions (resolveStep s p).1 rest).1,
     (resolveStep s p).2.2 ++ (runResolutions (resolveStep s p).1 rest).2)

/-- How often an emission occurs in an output trace. -/
def countEvt (e : REvent) (l : List REvent) : Nat := (l.filter (fun x => x = e)).length

/-- The derivation rule as §3 of the spec words it: take the trailing path
segment (everything after the last slash) and strip its extension by cutting
at the segment's own last dot; a segment without a dot is used whole. -/
def specDeriveList (cs : List Char) : List Char :=
  if lastIdxOf (cs.drop ((lastIdxOf cs '/') + 1).toNat) '.' < 0 then
    cs.drop ((lastIdxOf cs '/') + 1).toNat
  else
    (cs.drop ((lastIdxOf cs '/') + 1).toNat).take
      (lastIdxOf (cs.drop ((lastIdxOf cs '/') + 1).toNat) '.').toNat

/-- The spec's derivation rule on strings. -/
def specDeriveName (p : String) : String := String.mk (specDeriveList p.toList)

/-! ## Association-list and bucket lemmas -/

theorem assocFind_assocSet_self {α β : Type} [DecidableEq α]
    (l : List (α × β)) (k : α) (v : β) : assocFind (assocSet l k v) k = some v := by
  induction l with
  | nil => simp [assocFind, assocSet]
  | cons p rest ih =>
    obtain ⟨a, b⟩ := p
    by_cases h : a = k
    · simp [assocSet, assocFind, h]
    · simp [assocSet, assocFind, h, ih]

theorem bucketEntry_set_some (b : Bucket) (n : String) (r : Resource) :
    bucketEntry (assocSet b n (some r)) n = some r := by
  simp [bucketEntry, assocFind_assocSet_self]

theorem bucketEntry_set_none (b : Bucket) (n : String) :
    bucketEntry (assocSet b n none) n = none := by
  simp [bucketEntry, assocFind_assocSet_self]

theorem bucketEntry_nil (n : String) : bucketEntry [] n = none := rfl

/-! ## `lastIndexOf` lemmas -/

theorem lastIdxOf_neg_one_le (cs : List Char) (c : Char) : -1 ≤ lastIdxOf cs c := by
  induction cs with
  | nil => simp [lastIdxOf]
  | cons x xs ih =>
    simp only [lastIdxOf]
    split
    · omega
    · split <;> omega

theorem lastIdxOf_lt_length (cs : List Char) (c : Char) :
    lastIdxOf cs c < (cs.length : Int) := by
  induction cs with
  | nil => simp [lastIdxOf]
  | cons x xs ih =>
    simp only [lastIdxOf, List.length_cons]
    split
    · push_cast
      omega
    · split <;> (push_cast; omega)

theorem lastIdxOf_nonneg_of_mem (c : Char) :
    ∀ cs : List Char, c ∈ cs → 0 ≤ lastIdxOf cs c
  | [], h => absurd h (List.not_mem_nil c)
  | x :: xs, h => by
    simp only [lastIdxOf]
    by_cases hr : 0 ≤ lastIdxOf xs c
    · rw [if_pos hr]
      omega
    · rw [if_neg hr]
      rcases List.mem_cons.mp h with h1 | h2
      · rw [if_pos h1.symm]
      · exact absurd (lastIdxOf_nonneg_of_mem c xs h2) hr

theorem lastIdxOf_eq_neg_one (c : Char) :
    ∀ cs : List Char, c ∉ cs → lastIdxOf cs c = -1
  | [], _ => rfl
  | x :: xs, h => by
    have hx : ¬ x = c := fun e => h (List.mem_cons.mpr (Or.inl e.symm))
    have hxs : c ∉ xs := fun m => h (List.mem_cons_of_mem x m)
    simp only [lastIdxOf, lastIdxOf_eq_neg_one c xs hxs]
    rw [if_neg (by omega : ¬ (0 : Int) ≤ -1), if_neg hx]

theorem lastIdxOf_drop (c : Char) :
    ∀ (k : Nat) (cs : List Char), (k : Int) ≤ lastIdxOf cs c →
      lastIdxOf (cs.drop k) c = lastIdxOf cs c - k
  | 0, cs, _ => by simp
  | k + 1, [], h => by
    simp only [lastIdxOf, List.drop_nil] at h ⊢
    push_cast at h
    omega
  | k + 1, x :: xs, h => by
    have hr : 0 ≤ lastIdxOf xs c := by
      by_contra hneg
      simp only [lastIdxOf] at h
      rw [if_neg hneg] at h
      split at h <;> (push_cast at h; omega)
    have hk : (k : Int) ≤ lastIdxOf xs c := by
      simp only [lastIdxOf] at h
      rw [if_pos hr] at h
      push_cast at h
      omega
    have ih := lastIdxOf_drop c k xs hk
    simp only [List.drop_succ_cons, ih, lastIdxOf]
    rw [if_pos hr]
    push_cast
    omega

/-! ## The derivation rule versus the spec's wording -/

theorem deriveList_eq_specDeriveList (cs : List Char)
    (h : lastIdxOf cs '.' < 0 ∨ lastIdxOf cs '/' < lastIdxOf cs '.') :
    deriveList cs = specDeriveList cs := by
  rcases h with hpi | hlt
  · have hmem : '.' ∉ cs := fun hm =>
      absurd (lastIdxOf_nonneg_of_mem '.' cs hm) (by omega)
    have hseg : '.' ∉ cs.drop ((lastIdxOf cs '/') + 1).toNat :=
      fun hm => hmem (List.mem_of_mem_drop hm)
    have hseg' : lastIdxOf (cs.drop ((lastIdxOf cs '/') + 1).toNat) '.' = -1 :=
      lastIdxOf_eq_neg_one '.' _ hseg
    simp only [deriveList, specDeriveList, hseg']
    rw [if_pos hpi, if_pos (by omega : (-1 : Int) < 0)]
    apply List.take_of_length_le
    simp only [List.length_drop, Int.toNat_natCast]
    omega
  · have h0 : -1 ≤ lastIdxOf cs '/' := lastIdxOf_neg_one_le cs '/'
    have hpi0 : 0 ≤ lastIdxOf cs '.' := by omega
    have hkle : ((((lastIdxOf cs '/') + 1).toNat : Int)) ≤ lastIdxOf cs '.' := by omega
    have hdrop := lastIdxOf_drop '.' ((lastIdxOf cs '/') + 1).toNat cs hkle
    simp only [deriveList, specDeriveList, hdrop]
    rw [if_neg (by omega : ¬ lastIdxOf cs '.' < 0),
      if_neg (by omega :
        ¬ lastIdxOf cs '.' - ((((lastIdxOf cs '/') + 1).toNat : Nat) : Int) < 0)]
    congr 1
    omega

/-! ## `add` and lookup lemmas -/

theorem deriveStep_type (r : Resource) : (deriveStep r).type = r.type := by
  simp only [deriveStep]
  split <;> rfl

theorem deriveStep_eq_self (r : Resource) (h : ¬(r.name = "unknown" ∧ r.path ≠ "")) :
    deriveStep r = r := by
  simp only [deriveStep, if_neg h]

theorem add_resource_eq (s : Controller) (r : Resource) :
    (s.add r).resource = deriveStep r := by
  simp only [Controller.add]
  split <;> rfl

theorem add_fresh (s : Controller) (r : Resource)
    (h : registeredAt s r.type (deriveStep r).name = none) :
    (s.add r).result = some (deriveStep r) ∧
    (s.add r).events = [REvent.added (deriveStep r)] ∧
    registeredAt (s.add r).state r.type (deriveStep r).name = some (deriveStep r) := by
  have ht := deriveStep_type r
  simp only [registeredAt] at h ⊢
  simp only [Controller.add, ht, h]
  simp only [Option.isSome_none, Bool.false_eq_true, if_false]
  refine ⟨by trivial, by trivial, ?_⟩
  rw [assocFind_assocSet_self]
  simp [bucketEntry_set_some]

theorem add_dup (s : Controller) (r : Resource)
    (h : (registeredAt s r.type (deriveStep r).name).isSome = true) :
    (s.add r).result = none ∧ (s.add r).events = [] ∧ (s.add r).state = s := by
  have ht := deriveStep_type r
  simp only [registeredAt] at h
  cases hb : assocFind s.resources r.type with
  | none =>
    rw [hb] at h
    simp [bucketEntry, assocFind] at h
  | some b =>
    rw [hb] at h
    simp only [Option.getD_some] at h
    simp only [Controller.add, ht, hb, Option.getD_some, h, Option.isSome_some, if_true]
    exact ⟨by trivial, by trivial, by trivial⟩

theorem add_result_some_eq (s : Controller) (r r' : Resource)
    (h : (s.add r).result = some r') :
    r' = deriveStep r ∧
    registeredAt (s.add r).state r.type (deriveStep r).name = some (deriveStep r) := by
  cases hd : (registeredAt s r.type (deriveStep r).name).isSome
  · have h0 : registeredAt s r.type (deriveStep r).name = none := by
      cases hv : registeredAt s r.type (deriveStep r).name
      · rfl
      · rw [hv] at hd; cases hd
    obtain ⟨h1, _, h3⟩ := add_fresh s r h0
    have h4 : r' = deriveStep r := Option.some.inj (h.symm.trans h1)
    exact ⟨h4, h3⟩
  · obtain ⟨h1, _, _⟩ := add_dup s r hd
    rw [h] at h1
    cases h1

theorem getByType_eq_registeredAt (s : Controller) (t : Nat) (n : String)
    (hn : n ≠ "") : s.getByType t n = registeredAt s t n := by
  simp only [Controller.getByType, registeredAt, if_neg hn]
  cases hb : assocFind s.resources t <;> simp [bucketEntry, assocFind]

/-! ## Load-accounting lemmas -/

theorem countEvt_append (e : REvent) (l1 l2 : List REvent) :
    countEvt e (l1 ++ l2) = countEvt e l1 + countEvt e l2 := by
  simp [countEvt, List.filter_append]

theorem loadSuccess_active (s : Controller) (r : Resource) :
    (s.loadSuccess false false r).1.numToLoad = s.numToLoad - 1 ∧
    (s.loadSuccess false false r).2.2 =
      (if s.numToLoad - 1 = 0 then [REvent.onResourcesLoaded, REvent.allLoaded]
       else []) := by
  simp only [Controller.loadSuccess, Bool.false_eq_true, if_false]
  split <;> simp_all

theorem loadFailed_active (s : Controller) (r : Resource) :
    (s.loadFailed false false r).1.numToLoad = s.numToLoad - 1 ∧
    (s.loadFailed false false r).2.2 =
      (if s.numToLoad - 1 = 0 then [REvent.onResourcesLoaded, REvent.allLoaded]
       else []) := by
  simp only [Controller.loadFailed, Bool.false_eq_true, if_false]
  split <;> simp_all

theorem countEvt_nil (e : REvent) : countEvt e [] = 0 := rfl

theorem countEvt_fire_allLoaded :
    countEvt REvent.allLoaded [REvent.onResourcesLoaded, REvent.allLoaded] = 1 := by
  decide

theorem countEvt_fire_onResourcesLoaded :
    countEvt REvent.onResourcesLoaded
      [REvent.onResourcesLoaded, REvent.allLoaded] = 1 := by
  decide

theorem resolveStep_active (s : Controller) (p : Resource × Bool) :
    (resolveStep s p).1.numToLoad = s.numToLoad - 1 ∧
    (resolveStep s p).2.2 =
      (if s.numToLoad - 1 = 0 then [REvent.onResourcesLoaded, REvent.allLoaded]
       else []) := by
  obtain ⟨r, ok⟩ := p
  cases ok
  · exact loadFailed_active s r
  · exact loadSuccess_active s r

theorem runResolutions_counts (res : List (Resource × Bool)) :
    ∀ s : Controller,
      (runResolutions s res).1.numToLoad = s.numToLoad - res.length ∧
      countEvt REvent.allLoaded (runResolutions s res).2 =
        (if 1 ≤ s.numToLoad ∧ s.numToLoad ≤ (res.length : Int) then 1 else 0) ∧
      countEvt REvent.onResourcesLoaded (runResolutions s res).2 =
        (if 1 ≤ s.numToLoad ∧ s.numToLoad ≤ (res.length : Int) then 1 else 0) := by
  induction res with
  | nil =>
    intro s
    refine ⟨by simp [runResolutions], ?_, ?_⟩ <;>
      · simp only [runResolutions, countEvt_nil, List.length_nil]
        split <;> omega
  | cons p rest ih =>
    intro s
    obtain ⟨hn, he⟩ := resolveStep_active s p
    obtain ⟨ihn, ihA, ihO⟩ := ih (resolveStep s p).1
    rw [hn] at ihn ihA ihO
    simp only [runResolutions, List.length_cons]
    refine ⟨?_, ?_, ?_⟩
    · rw [ihn]
      push_cast
      omega
    · rw [countEvt_append, he, ihA]
      simp only [apply_ite (countEvt REvent.allLoaded), countEvt_fire_allLoaded,
        countEvt_nil]
      push_cast
      split_ifs <;> omega
    · rw [countEvt_append, he, ihO]
      simp only [apply_ite (countEvt REvent.onResourcesLoaded),
        countEvt_fire_onResourcesLoaded, countEvt_nil]
      push_cast
      split_ifs <;> omega

theorem addPhaseLoads_numToLoad (rs : List Resource) :
    ∀ s : Controller,
      (addPhaseLoads s rs).numToLoad = s.numToLoad + rs.length := by
  induction rs with
  | nil => intro s; simp [addPhaseLoads]
  | cons r rest ih =>
    intro s
    simp only [addPhaseLoads, Controller.addToLoad, Bool.false_eq_true, if_false,
      List.length_cons]
    rw [ih]
    push_cast
    omega

/-- The two components of `loadSuccess` that C5 is about, for every engine
flag combination: the handle comes back with its flags flipped, and the in-use
bucket of its type is the old bucket (lazily `[]`) with exactly that handle
appended. -/
theorem loadSuccess_components (s : Controller) (er el : Bool) (r : Resource) :
    (s.loadSuccess er el r).2.1 = { r with isLoading := false, inUse := true } ∧
    (s.loadSuccess er el r).1.resourcesInUse =
      assocSet s.resourcesInUse r.type
        (((assocFind s.resourcesInUse r.type).getD [])
          ++ [{ r with isLoading := false, inUse := true }]) := by
  cases er
  · refine ⟨?_, ?_⟩ <;>
      · simp only [Controller.loadSuccess, Bool.false_eq_true, if_false]
        split <;> rfl
  · exact ⟨rfl, rfl⟩

/-- Queueing `A`, `B`, `C` into an empty or never-created queue leaves the
queue array exactly `[A, B, C]` and touches nothing else. -/
theorem queueABC_eq (s : Controller) (A B C : Resource)
    (hq : s.syncQueue = none ∨ s.syncQueue = some []) :
    queueABC s A B C = { s with syncQueue := some [A, B, C] } := by
  rcases hq with h | h <;> simp [queueABC, Controller.addToQueue, h]

/-! ## Unique-id lemmas -/

theorem runUniqueIDs_fst (k : Nat) :
    ∀ s : Controller,
      (runUniqueIDs s k).1 =
        (List.range k).map (fun (i : Nat) => s.uniqueID + (i : Int) + 1) := by
  induction k with
  | zero => intro s; simp [runUniqueIDs]
  | succ k ih =>
    intro s
    simp only [runUniqueIDs, Controller.getUniqueID, ih, List.range_succ_eq_map,
      List.map_cons, List.map_map, List.cons.injEq]
    constructor
    · push_cast
      ring
    · apply List.map_congr_left
      intro i _
      simp only [Function.comp_apply]
      push_cast
      ring

/-! ## Claim theorems -/

/-- C1: with the phase active (engine readiness flag false, and the engine's
own loading gate clear, as the zero-crossing check requires), `addToLoad`-ing
a batch `rs` from the idle `numToLoad = 0` baseline and then resolving a
sequence `res` whose handles are a permutation of `rs` — any order, any mix of
`loadSuccess` and `loadFailed` — emits the phase-complete notification (the
engine callback and the `ALL_LOADED` event) zero times on every proper prefix
of the resolutions, exactly once over the full run when the batch is
nonempty, and not at all when zero handles were added and no completion
occurs. -/
theorem phase_complete_fires_exactly_once (s0 : Controller) (rs : List Resource)
    (res : List (Resource × Bool)) (hbase : s0.numToLoad = 0)
    (hperm : (res.map Prod.fst).Perm rs) :
    (∀ k, k < res.length →
      countEvt REvent.allLoaded
        (runResolutions (addPhaseLoads s0 rs) (res.take k)).2 = 0 ∧
      countEvt REvent.onResourcesLoaded
        (runResolutions (addPhaseLoads s0 rs) (res.take k)).2 = 0) ∧
    (rs ≠ [] →
      countEvt REvent.allLoaded (runResolutions (addPhaseLoads s0 rs) res).2 = 1 ∧
      countEvt REvent.onResourcesLoaded
        (runResolutions (addPhaseLoads s0 rs) res).2 = 1) ∧
    (rs = [] → (runResolutions (addPhaseLoads s0 rs) res).2 = []) := by
  have hlen : res.length = rs.length := by
    have h := hperm.length_eq
    simpa using h
  have hN := addPhaseLoads_numToLoad rs s0
  rw [hbase, zero_add] at hN
  refine ⟨?_, ?_, ?_⟩
  · intro k hk
    obtain ⟨_, hA, hO⟩ := runResolutions_counts (res.take k) (addPhaseLoads s0 rs)
    rw [hN] at hA hO
    have htk : (res.take k).length = k := by
      rw [List.length_take]
      omega
    rw [htk] at hA hO
    constructor
    · rw [hA]
      split_ifs with h
      · push_cast at h
        omega
      · rfl
    · rw [hO]
      split_ifs with h
      · push_cast at h
        omega
      · rfl
  · intro hne
    obtain ⟨_, hA, hO⟩ := runResolutions_counts res (addPhaseLoads s0 rs)
    rw [hN] at hA hO
    have h1 : 0 < rs.length := List.length_pos.mpr hne
    constructor
    · rw [hA, if_pos (by omega)]
    · rw [hO, if_pos (by omega)]
  · intro hnil
    subst hnil
    have hres : res = [] := by
      have h := hperm.eq_nil
      simpa using h
    subst hres
    rfl

/-- C1 witness: a two-handle batch, resolved out of order with one failure
and one success. -/
theorem phase_complete_fires_exactly_once_witness :
    initController.numToLoad = 0 ∧
    (([((⟨1, "b", "", false, false⟩ : Resource), false),
        ((⟨0, "a", "", false, false⟩ : Resource), true)].map Prod.fst).Perm
      [⟨0, "a", "", false, false⟩, ⟨1, "b", "", false, false⟩]) ∧
    countEvt REvent.allLoaded
      (runResolutions
        (addPhaseLoads initController
          [⟨0, "a", "", false, false⟩, ⟨1, "b", "", false, false⟩])
        [((⟨1, "b", "", false, false⟩ : Resource), false),
         ((⟨0, "a", "", false, false⟩ : Resource), true)]).2 = 1 :=
  ⟨rfl, by decide,
    ((phase_complete_fires_exactly_once initController
      [⟨0, "a", "", false, false⟩, ⟨1, "b", "", false, false⟩]
      [((⟨1, "b", "", false, false⟩ : Resource), false),
       ((⟨0, "a", "", false, false⟩ : Resource), true)]
      rfl (by decide)).2.1 (by decide)).1⟩

/-- C2 counterexample: two handles with identical `(type, name)` —
`(0, "unknown")` — but different sources.  The sentinel name is rewritten by
source derivation before the duplicate check, so the second `add` returns the
handle (not null) and emits `ADDED`. -/
theorem add_duplicate_unknown_sentinel_cex :
    ((initController.add ⟨0, "unknown", "a.png", false, false⟩).state.add
        ⟨0, "unknown", "b.png", false, false⟩).result ≠ none ∧
    ((initController.add ⟨0, "unknown", "a.png", false, false⟩).state.add
        ⟨0, "unknown", "b.png", false, false⟩).events ≠ [] := by
  decide

/-- C2 (amended): for two handles with identical `(type, name)` whose names
are not rewritten by source derivation (the name is not the `"unknown"`
sentinel with a nonempty source), starting from a state with no truthy entry
under that key: the first `add` returns its handle, and the second returns
null, emits nothing, and leaves the state — hence the registry, still holding
the first handle under the key — completely untouched. -/
theorem add_duplicate_rejected (s : Controller) (h1 h2 : Resource)
    (htype : h2.type = h1.type) (hname : h2.name = h1.name)
    (hd1 : ¬(h1.name = "unknown" ∧ h1.path ≠ ""))
    (hd2 : ¬(h2.name = "unknown" ∧ h2.path ≠ ""))
    (hfresh : registeredAt s h1.type h1.name = none) :
    (s.add h1).result = some h1 ∧
    ((s.add h1).state.add h2).result = none ∧
    ((s.add h1).state.add h2).events = [] ∧
    ((s.add h1).state.add h2).state = (s.add h1).state ∧
    registeredAt ((s.add h1).state.add h2).state h1.type h1.name = some h1 := by
  have e1 : deriveStep h1 = h1 := deriveStep_eq_self h1 hd1
  have e2 : deriveStep h2 = h2 := deriveStep_eq_self h2 hd2
  obtain ⟨r1, _, r3⟩ := add_fresh s h1 (by rw [e1]; exact hfresh)
  rw [e1] at r1 r3
  have hdup : (registeredAt (s.add h1).state h2.type (deriveStep h2).name).isSome
      = true := by
    rw [e2, htype, hname, r3]
    rfl
  obtain ⟨d1, d2, d3⟩ := add_dup (s.add h1).state h2 hdup
  refine ⟨r1, d1, d2, d3, ?_⟩
  rw [d3]
  exact r3

/-- C2 witness: a plain named handle added twice under `(0, "n")`. -/
theorem add_duplicate_rejected_witness :
    registeredAt initController 0 "n" = none ∧
    (initController.add ⟨0, "n", "", false, false⟩).result =
      some ⟨0, "n", "", false, false⟩ ∧
    ((initController.add ⟨0, "n", "", false, false⟩).state.add
      ⟨0, "n", "q.png", true, true⟩).result = none := by
  refine ⟨by decide, ?_, ?_⟩
  · exact (add_duplicate_rejected initController ⟨0, "n", "", false, false⟩
      ⟨0, "n", "q.png", true, true⟩ rfl rfl (by decide) (by decide) (by decide)).1
  · exact (add_duplicate_rejected initController ⟨0, "n", "", false, false⟩
      ⟨0, "n", "q.png", true, true⟩ rfl rfl (by decide) (by decide) (by decide)).2.1

/-- C3 counterexample: for source `"a.b/readme"` the only dot lies in a
directory segment; `add` derives the empty name, not the whole trailing
segment `"readme"` that the claim's rule demands (and that the spec's own
rule, `specDeriveName`, produces). -/
theorem derive_name_directory_dot_cex :
    (initController.add
        ⟨0, "unknown", "a.b/readme", false, false⟩).resource.name = "" ∧
    specDeriveName "a.b/readme" = "readme" ∧
    ("" : String) ≠ "readme" := by
  decide

/-- C3 (amended): for a handle named `"unknown"` with a nonempty source whose
last dot — if it has one at all — lies after its last slash, `add` rewrites
the handle's name exactly as the spec's rule says: the trailing path segment
with its extension stripped, or the whole trailing segment when there is no
extension.  (When the source's only dots sit in directory segments the code
instead derives the empty string, per the counterexample.) -/
theorem derive_name_matches_spec (s : Controller) (r : Resource)
    (hname : r.name = "unknown") (hpath : r.path ≠ "")
    (hdot : lastIdxOf r.path.toList '.' < 0 ∨
      lastIdxOf r.path.toList '/' < lastIdxOf r.path.toList '.') :
    (s.add r).resource.name = specDeriveName r.path := by
  rw [add_resource_eq]
  simp only [deriveStep, if_pos (And.intro hname hpath)]
  simp only [deriveFromPath, specDeriveName,
    deriveList_eq_specDeriveList r.path.toList hdot]

/-- C3 witness: the spec's own example `"a/b/c.png"`, deriving `"c"`. -/
theorem derive_name_matches_spec_witness :
    ("a/b/c.png" : String) ≠ "" ∧
    (lastIdxOf ("a/b/c.png" : String).toList '/' <
      lastIdxOf ("a/b/c.png" : String).toList '.') ∧
    (initController.add ⟨0, "unknown", "a/b/c.png", false, false⟩).resource.name =
      specDeriveName "a/b/c.png" ∧
    specDeriveName "a/b/c.png" = "c" := by
  refine ⟨by decide, by decide, ?_, by decide⟩
  exact derive_name_matches_spec initController
    ⟨0, "unknown", "a/b/c.png", false, false⟩ rfl (by decide) (Or.inr (by decide))

/-- C4 counterexample: a single `loadFailed` with no prior `addToLoad`, on a
fresh controller during the active phase, drives `numToLoad` to `-1` — the
decrement is not clamped at zero. -/
theorem numToLoad_negative_cex :
    ((initController.loadFailed false false
        ⟨0, "a", "", true, false⟩).1).numToLoad = -1 ∧
    ((initController.loadFailed false false
        ⟨0, "a", "", true, false⟩).1).numToLoad < 0 := by
  decide

/-- C4 (amended): during the active phase `loadFailed` and `loadSuccess`
decrement `numToLoad` by exactly one, unconditionally — there is no clamping
at zero and no log, so completions in excess of `addToLoad` calls drive the
counter negative. -/
theorem numToLoad_unclamped_decrement (s : Controller) (r : Resource) :
    (s.loadFailed false false r).1.numToLoad = s.numToLoad - 1 ∧
    (s.loadSuccess false false r).1.numToLoad = s.numToLoad - 1 :=
  ⟨(loadFailed_active s r).1, (loadSuccess_active s r).1⟩

/-- C5: for every prior state and every engine-flag combination — hence
regardless of whether `addToLoad` was ever called for the handle — a single
`loadSuccess` call appends the handle to the in-use bucket of its type exactly
once (the bucket is created lazily as `[]`, and the new bucket is the old one
with precisely that handle appended, its occurrence count rising by one), with
`isLoading` cleared and `inUse` set on the stored handle. -/
theorem loadSuccess_promotes_exactly_once (er el : Bool) (s : Controller)
    (r : Resource) :
    (s.loadSuccess er el r).2.1.isLoading = false ∧
    (s.loadSuccess er el r).2.1.inUse = true ∧
    (s.loadSuccess er el r).2.1.type = r.type ∧
    assocFind (s.loadSuccess er el r).1.resourcesInUse r.type =
      some (((assocFind s.resourcesInUse r.type).getD [])
        ++ [(s.loadSuccess er el r).2.1]) ∧
    (((assocFind (s.loadSuccess er el r).1.resourcesInUse r.type).getD []).count
        (s.loadSuccess er el r).2.1 =
      ((assocFind s.resourcesInUse r.type).getD []).count
        (s.loadSuccess er el r).2.1 + 1) := by
  obtain ⟨h1, h2⟩ := loadSuccess_components s er el r
  rw [h1, h2, assocFind_assocSet_self]
  refine ⟨rfl, rfl, rfl, rfl, ?_⟩
  simp [List.count_append]

/-- C6: enqueueing `A`, `B`, `C` in that order into an empty or never-created
synchronous queue and then draining force-loads `C`, then `B`, then `A`,
removing each from the queue as it goes; a drain call on an empty or
never-created queue is a no-op apart from clearing `isSyncLoading`; and every
drain call clears `isSyncLoading`. -/
theorem sync_queue_drains_lifo (s : Controller) (A B C : Resource)
    (hq : s.syncQueue = none ∨ s.syncQueue = some []) :
    ((queueABC s A B C).loadNextFromQueue).2 = some C ∧
    ((queueABC s A B C).loadNextFromQueue).1.syncQueue = some [A, B] ∧
    (((queueABC s A B C).loadNextFromQueue).1.loadNextFromQueue).2 = some B ∧
    (((queueABC s A B C).loadNextFromQueue).1.loadNextFromQueue).1.syncQueue
      = some [A] ∧
    ((((queueABC s A B C).loadNextFromQueue).1.loadNextFromQueue).1.loadNextFromQueue).2
      = some A ∧
    ((((queueABC s A B C).loadNextFromQueue).1.loadNextFromQueue).1.loadNextFromQueue).1.syncQueue
      = some [] ∧
    (∀ s' : Controller, s'.syncQueue = none ∨ s'.syncQueue = some [] →
      s'.loadNextFromQueue = ({ s' with isSyncLoading := false }, none)) ∧
    (∀ s' : Controller, (s'.loadNextFromQueue).1.isSyncLoading = false) := by
  have noop : ∀ s' : Controller, s'.syncQueue = none ∨ s'.syncQueue = some [] →
      s'.loadNextFromQueue = ({ s' with isSyncLoading := false }, none) := by
    intro s' h'
    rcases h' with h' | h' <;> simp [Controller.loadNextFromQueue, h']
  have clears : ∀ s' : Controller,
      (s'.loadNextFromQueue).1.isSyncLoading = false := by
    intro s'
    cases hq' : s'.syncQueue with
    | none => simp [Controller.loadNextFromQueue, hq']
    | some q =>
      cases hg : q.getLast? <;> simp [Controller.loadNextFromQueue, hq', hg]
  rw [queueABC_eq s A B C hq]
  exact ⟨rfl, rfl, rfl, rfl, rfl, rfl, noop, clears⟩

/-- C6 witness: three concrete handles through a fresh controller's queue. -/
theorem sync_queue_drains_lifo_witness :
    (initController.syncQueue = none ∨ initController.syncQueue = some []) ∧
    ((queueABC initController ⟨0, "qa", "", false, false⟩
        ⟨0, "qb", "", false, false⟩ ⟨0, "qc", "", false, false⟩).loadNextFromQueue).2
      = some ⟨0, "qc", "", false, false⟩ := by
  refine ⟨Or.inl rfl, ?_⟩
  exact (sync_queue_drains_lifo initController ⟨0, "qa", "", false, false⟩
    ⟨0, "qb", "", false, false⟩ ⟨0, "qc", "", false, false⟩ (Or.inl rfl)).1

/-- C7: from a fresh controller, `k` calls of `getUniqueID` return exactly the
ids `1, 2, …, k`: `k` of them, pairwise strictly increasing (hence all
distinct), the first being `1` — the counter starts at `0` and is
pre-incremented on every call. -/
theorem uniqueID_run_strictly_increasing (k : Nat) :
    (runUniqueIDs initController k).1 =
      (List.range k).map (fun (i : Nat) => (i : Int) + 1) ∧
    (runUniqueIDs initController k).1.length = k ∧
    List.Pairwise (fun a b : Int => a < b) (runUniqueIDs initController k).1 ∧
    (runUniqueIDs initController k).1.Nodup ∧
    (runUniqueIDs initController k).1.head? = (if k = 0 then none else some 1) := by
  have he : (runUniqueIDs initController k).1 =
      (List.range k).map (fun (i : Nat) => (i : Int) + 1) := by
    rw [runUniqueIDs_fst]
    apply List.map_congr_left
    intro i _
    simp [initController]
  have hp : List.Pairwise (fun a b : Int => a < b)
      ((List.range k).map (fun (i : Nat) => (i : Int) + 1)) := by
    rw [List.pairwise_map]
    apply List.Pairwise.imp ?_ (List.pairwise_lt_range k)
    intro a b hab
    omega
  refine ⟨he, ?_, ?_, ?_, ?_⟩
  · rw [he]
    simp
  · rw [he]
    exact hp
  · rw [he]
    exact hp.imp (fun hab => ne_of_lt hab)
  · rw [he]
    cases k with
    | zero => simp
    | succ k => simp [List.range_succ_eq_map]

/-- C8 counterexample: with `(0, "unknown")` and `(0, "x")` both registered,
removing the handle at `(0, "unknown")` succeeds, yet re-adding a handle with
the very same `(type, name)` — but carrying source `"p/x.q"` — fails: the
derivation step rewrites its name to `"x"`, which is still taken. -/
theorem remove_readd_derivation_cex :
    ((((initController.add ⟨0, "unknown", "", false, false⟩).state.add
        ⟨0, "x", "", false, false⟩).state.remove
        ⟨0, "unknown", "", false, false⟩).2 = false) ∧
    (((((initController.add ⟨0, "unknown", "", false, false⟩).state.add
        ⟨0, "x", "", false, false⟩).state.remove
        ⟨0, "unknown", "", false, false⟩).1).add
        ⟨0, "unknown", "p/x.q", false, false⟩).result = none := by
  decide

/-- C8 (amended): `remove` of a handle with no truthy registry slot is a total
no-op on the state that only raises the warning flag (nothing is thrown: the
operation is a total function); and after a successful `remove`, re-adding a
handle with the removed `(type, name)` succeeds and re-registers it — provided
the new handle's name is not rewritten by source derivation (it is not the
`"unknown"` sentinel with a nonempty source, per the counterexample). -/
theorem remove_logs_and_name_reusable (s : Controller) (r h' : Resource)
    (hreg : (registeredAt s r.type r.name).isSome = true)
    (ht : h'.type = r.type) (hn : h'.name = r.name)
    (hd : ¬(h'.name = "unknown" ∧ h'.path ≠ "")) :
    (∀ (s₀ : Controller) (r₀ : Resource),
      registeredAt s₀ r₀.type r₀.name = none → s₀.remove r₀ = (s₀, true)) ∧
    (s.remove r).2 = false ∧
    ((s.remove r).1.add h').result = some h' ∧
    registeredAt ((s.remove r).1.add h').state r.type r.name = some h' := by
  have noop : ∀ (s₀ : Controller) (r₀ : Resource),
      registeredAt s₀ r₀.type r₀.name = none → s₀.remove r₀ = (s₀, true) := by
    intro s₀ r₀ h₀
    rw [registeredAt] at h₀
    cases hb : assocFind s₀.resources r₀.type with
    | none => simp [Controller.remove, hb]
    | some b =>
      rw [hb, Option.getD_some] at h₀
      simp [Controller.remove, hb, h₀]
  rw [registeredAt] at hreg
  cases hb : assocFind s.resources r.type with
  | none =>
    rw [hb] at hreg
    simp [bucketEntry, assocFind] at hreg
  | some b =>
    rw [hb, Option.getD_some] at hreg
    have hrm : s.remove r =
        ({ s with resources :=
            assocSet s.resources r.type (assocSet b r.name none) }, false) := by
      simp [Controller.remove, hb, hreg]
    have hafter : registeredAt (s.remove r).1 r.type r.name = none := by
      rw [hrm]
      simp [registeredAt, assocFind_assocSet_self, bucketEntry_set_none]
    have e' : deriveStep h' = h' := deriveStep_eq_self h' hd
    obtain ⟨a1, _, a3⟩ := add_fresh (s.remove r).1 h'
      (by rw [e', ht, hn]; exact hafter)
    rw [e'] at a1 a3
    rw [ht, hn] at a3
    exact ⟨noop, by rw [hrm], a1, a3⟩

/-- C8 witness: remove the registered `(0, "n")` handle and re-add a fresh
handle under the same key. -/
theorem remove_logs_and_name_reusable_witness :
    (registeredAt (initController.add ⟨0, "n", "", false, false⟩).state 0
      "n").isSome = true ∧
    (((initController.add ⟨0, "n", "", false, false⟩).state.remove
        ⟨0, "n", "", false, false⟩).1.add ⟨0, "n", "p2", true, true⟩).result =
      some ⟨0, "n", "p2", true, true⟩ := by
  refine ⟨by decide, ?_⟩
  exact (remove_logs_and_name_reusable
    (initController.add ⟨0, "n", "", false, false⟩).state
    ⟨0, "n", "", false, false⟩ ⟨0, "n", "p2", true, true⟩
    (by decide) rfl rfl (by decide)).2.2.1

/-- C9 counterexample: a handle with the empty name is successfully added
under the texture tag — the name is unique in the registry and `add` returns
it — yet the subsequent lookup by that very type and name returns null,
because `getTexture` rejects a falsy name first. -/
theorem empty_name_lookup_cex :
    ((initController.add ⟨typeTEXTURE, "", "", false, false⟩).result).isSome
      = true ∧
    (initController.add
        ⟨typeTEXTURE, "", "", false, false⟩).state.getTexture "" = none := by
  decide

/-- C9 (amended): a handle successfully added whose stored name is nonempty is
returned by the lookup of its type and that name (`getByType`, of which
`getTexture` and `getSound` are the instances at the texture and sound tags);
a lookup with an empty or absent name returns null — which is what forces the
nonempty-name proviso, per the counterexample — and a lookup under a type and
name with no truthy registration returns null. -/
theorem getByName_returns_added_handle (s : Controller) (h r' : Resource)
    (hadd : (s.add h).result = some r') (hn : r'.name ≠ "") :
    (s.add h).state.getByType h.type r'.name = some r' ∧
    (∀ (s' : Controller) (n : String),
      s'.getTexture n = s'.getByType typeTEXTURE n ∧
      s'.getSound n = s'.getByType typeSOUND n) ∧
    (∀ (s' : Controller) (t : Nat), s'.getByType t "" = none) ∧
    (∀ (s' : Controller) (t : Nat) (n : String),
      registeredAt s' t n = none → s'.getByType t n = none) := by
  obtain ⟨he, hr⟩ := add_result_some_eq s h r' hadd
  refine ⟨?_, fun s' n => ⟨rfl, rfl⟩,
    fun s' t => by simp [Controller.getByType], fun s' t n h0 => ?_⟩
  · rw [getByType_eq_registeredAt _ _ _ hn, he]
    exact hr
  · by_cases hne : n = ""
    · subst hne
      simp [Controller.getByType]
    · rw [getByType_eq_registeredAt _ _ _ hne, h0]

/-- C9 witness: a texture handle added and looked up under its name. -/
theorem getByName_returns_added_handle_witness :
    (initController.add ⟨typeTEXTURE, "tex", "", false, false⟩).result =
      some ⟨typeTEXTURE, "tex", "", false, false⟩ ∧
    (initController.add
        ⟨typeTEXTURE, "tex", "", false, false⟩).state.getTexture "tex" =
      some ⟨typeTEXTURE, "tex", "", false, false⟩ := by
  refine ⟨by decide, ?_⟩
  exact (getByName_returns_added_handle initController
    ⟨typeTEXTURE, "tex", "", false, false⟩ ⟨typeTEXTURE, "tex", "", false, false⟩
    (by decide) (by decide)).1

/-- C10: when `add` rejects an `"unknown"`-sentinel handle with a source
because the derived name is already registered, the call returns null, emits
nothing and leaves the state untouched — yet the caller's handle has already
had its `name` field overwritten with the derived name, since the derivation
step runs before the duplicate check. -/
theorem add_duplicate_mutates_caller_name (s : Controller) (r : Resource)
    (hname : r.name = "unknown") (hpath : r.path ≠ "")
    (hdup : (registeredAt s r.type (deriveFromPath r.path)).isSome = true)
    (hne : deriveFromPath r.path ≠ "unknown") :
    (s.add r).result = none ∧ (s.add r).events = [] ∧ (s.add r).state = s ∧
    (s.add r).resource.name = deriveFromPath r.path ∧
    (s.add r).resource.name ≠ r.name := by
  have hds : deriveStep r = { r with name := deriveFromPath r.path } := by
    simp [deriveStep, hname, hpath]
  have hdup' : (registeredAt s r.type (deriveStep r).name).isSome = true := by
    rw [hds]
    exact hdup
  obtain ⟨d1, d2, d3⟩ := add_dup s r hdup'
  refine ⟨d1, d2, d3, ?_, ?_⟩
  · rw [add_resource_eq, hds]
  · rw [add_resource_eq, hds, hname]
    exact hne

/-- C10 witness: `(0, "b")` is registered; adding the sentinel handle with
source `"x/b.png"` is rejected while its name is rewritten to `"b"`. -/
theorem add_duplicate_mutates_caller_name_witness :
    (registeredAt (initController.add ⟨0, "b", "", false, false⟩).state 0
      (deriveFromPath "x/b.png")).isSome = true ∧
    ((initController.add ⟨0, "b", "", false, false⟩).state.add
      ⟨0, "unknown", "x/b.png", false, false⟩).result = none ∧
    ((initController.add ⟨0, "b", "", false, false⟩).state.add
      ⟨0, "unknown", "x/b.png", false, false⟩).resource.name =
      deriveFromPath "x/b.png" := by
  refine ⟨by decide, ?_, ?_⟩
  · exact (add_duplicate_mutates_caller_name
      (initController.add ⟨0, "b", "", false, false⟩).state
      ⟨0, "unknown", "x/b.png", false, false⟩ rfl (by decide) (by decide)
      (by decide)).1
  · exact (add_duplicate_mutates_caller_name
      (initController.add ⟨0, "b", "", false, false⟩).state
      ⟨0, "unknown", "x/b.png", false, false⟩ rfl (by decide) (by decide)
      (by decide)).2.2.2.1

end ResourceCtrl
